import Mathlib

/-!
Verification of the TweetCordBotJS new-item detection and delivery pipeline.

The definitions below are a shallow embedding of the TypeScript source:
  - src/lib/twitterClient.ts   (Tweet, TwitterUser records)
  - src/lib/storage.ts         (MemoryStorage, FileStorage)
  - src/lib/discordClient.ts   (DiscordClient.sendTweet fallback logic)
  - src/trigger/tweetMonitor.ts (monitorTweets run: diff, delivery loop,
    watermark persistence, rate-limit handling)

Network effects (the Twitter fetch and each Discord post) are passed in as
explicit oracle values: the fetch result is a `FetchOutcome` argument and the
success of the i-th Discord send attempt is `sendOk i`.  Everything else is
translated statement by statement from the source.
-/

/-- Tweet record, from twitterClient.ts (the fields the pipeline control flow
reads; metrics and attachments do not affect which items are delivered). -/
structure Tweet where
  id : String
  text : String
  created_at : String
  author_id : String
deriving DecidableEq, Repr

/-- TwitterUser record, from twitterClient.ts. -/
structure TwitterUser where
  id : String
  username : String
  name : String
  verified : Bool
deriving DecidableEq, Repr

/-- JS `Array.prototype.findIndex` with a running index, as used at
tweetMonitor.ts line 98; `none` models the -1 result. -/
def findIndexAux (p : Tweet → Bool) : List Tweet → Nat → Option Nat
  | [], _ => none
  | t :: rest, i => if p t then some i else findIndexAux p rest (i + 1)

/-- JS `tweets.findIndex(p)` (first matching index or -1/none). -/
def findIndex (p : Tweet → Bool) (l : List Tweet) : Option Nat :=
  findIndexAux p l 0

/-- tweetMonitor.ts lines 96-102: `newTweets` before the reversal.
`tweets` is newest-first as fetched; `slice(0, i)` is `take i`. -/
def selectNew (tweets : List Tweet) (lastTweetId : Option String) : List Tweet :=
  match lastTweetId with
  | none => tweets
  | some lastId =>
    match findIndex (fun t => t.id == lastId) tweets with
    | none => tweets
    | some i => tweets.take i

/-- The Diff Engine of the spec: `selectNew` followed by the in-place
`newTweets.reverse()` at tweetMonitor.ts line 124, so the result is
oldest-first. -/
def computeNew (tweets : List Tweet) (lastTweetId : Option String) : List Tweet :=
  (selectNew tweets lastTweetId).reverse

/-- tweetMonitor.ts lines 96-102: whether `newTweets` still aliases the
fetched `tweets` array when the loop starts — it does unless the watermark was
found and `slice` built a fresh array.  In the aliasing case the in-place
`newTweets.reverse()` at line 124 also reverses `tweets` itself. -/
def newTweetsAliasesFetched (tweets : List Tweet) (lastTweetId : Option String) : Bool :=
  match lastTweetId with
  | none => true
  | some lastId =>
    match findIndex (fun t => t.id == lastId) tweets with
    | none => true
    | some _ => false

/-- The value of `tweets[0].id` read after the delivery loop (tweetMonitor.ts
lines 146, 151 and 158): the oldest fetched id when `newTweets` aliased
`tweets` (the in-place reverse mutated the fetched array), the newest fetched
id otherwise. -/
def postLoopHeadId (tweets : List Tweet) (lastTweetId : Option String) : Option String :=
  (if newTweetsAliasesFetched tweets lastTweetId then tweets.reverse else tweets).head?.map
    Tweet.id

/-- Delivery loop body, tweetMonitor.ts lines 123-142.  `n` is
`newTweets.length` (fixed for the whole loop), `i` the 0-based position of the
current attempt in the batch, `count` the running `processedCount`.  Returns
the final `processedCount` together with, for each attempt in order, whether
the 1-second pacing delay at lines 131-134 ran after it.  A send failure is
caught (lines 135-141): the loop records no delay and continues. -/
def deliverAux (n : Nat) (sendOk : Nat → Bool) :
    List Tweet → Nat → Nat → Nat × List Bool
  | [], _, count => (count, [])
  | _ :: rest, i, count =>
    if sendOk i then
      let count1 := count + 1
      let d := decide (1 < n) && decide (count1 < n)
      let r := deliverAux n sendOk rest (i + 1) count1
      (r.1, d :: r.2)
    else
      let r := deliverAux n sendOk rest (i + 1) count
      (r.1, false :: r.2)

/-- The whole delivery loop over an oldest-first batch: final `processedCount`
and the per-attempt pacing-delay trace. -/
def deliverAll (batch : List Tweet) (sendOk : Nat → Bool) : Nat × List Bool :=
  deliverAux batch.length sendOk batch 0 0

/-- Number of successful send attempts at positions `i, i+1, ..., i+m-1`. -/
def countIdx (sendOk : Nat → Bool) : Nat → Nat → Nat
  | _, 0 => 0
  | i, m + 1 => (if sendOk i then 1 else 0) + countIdx sendOk (i + 1) m

/-- Outcome of the fetch stage, as seen by the orchestrator's catch block:
a tweet list, an axios error whose `response.status` is 429, or any other
error (tweetMonitor.ts lines 161-188). -/
inductive FetchOutcome where
  | ok (tweets : List Tweet)
  | rateLimited
  | fetchError (msg : String)
deriving DecidableEq, Repr

/-- One run's observable result.  `status`, `message`, `tweetsProcessed` and
`latestTweetId` are the fields of the object the task returns;
`watermarkAfter` is the storage state when the run ends, `sendAttemptCount`
the number of per-item Discord send attempts, `errorNotifyAttempted` whether
the catch block tried to post an error notification, and `raised` whether the
run re-threw its error (line 187). -/
structure RunResult where
  status : String
  message : String
  tweetsProcessed : Nat
  latestTweetId : Option String
  watermarkAfter : Option String
  sendAttemptCount : Nat
  errorNotifyAttempted : Bool
  raised : Bool
deriving DecidableEq, Repr

/-- The `monitorTweets` run (tweetMonitor.ts lines 41-189) given the fetch
outcome, the watermark read from storage, and the send-success oracle. -/
def monitorRun (fetch : FetchOutcome) (lastTweetId : Option String)
    (sendOk : Nat → Bool) : RunResult :=
  match fetch with
  | .rateLimited =>
    { status := "rate_limited"
      message := "Rate limit exceeded - will retry in 15 minutes"
      tweetsProcessed := 0
      latestTweetId := none
      watermarkAfter := lastTweetId
      sendAttemptCount := 0
      errorNotifyAttempted := false
      raised := false }
  | .fetchError msg =>
    { status := "error"
      message := msg
      tweetsProcessed := 0
      latestTweetId := none
      watermarkAfter := lastTweetId
      sendAttemptCount := 0
      errorNotifyAttempted := true
      raised := true }
  | .ok tweets =>
    match tweets with
    | [] =>
      { status := "success"
        message := "No tweets found"
        tweetsProcessed := 0
        latestTweetId := none
        watermarkAfter := lastTweetId
        sendAttemptCount := 0
        errorNotifyAttempted := false
        raised := false }
    | newest :: _ =>
      let newTweets := selectNew tweets lastTweetId
      if newTweets.length = 0 then
        { status := "success"
          message := "No new tweets since last check"
          tweetsProcessed := 0
          latestTweetId := some newest.id
          watermarkAfter := lastTweetId
          sendAttemptCount := 0
          errorNotifyAttempted := false
          raised := false }
      else
        let batch := newTweets.reverse
        let delivered := deliverAll batch sendOk
        let processedCount := delivered.1
        { status := "success"
          message := "Processed " ++ toString processedCount ++ " new tweets"
          tweetsProcessed := processedCount
          latestTweetId := postLoopHeadId tweets lastTweetId
          watermarkAfter := if 0 < processedCount then postLoopHeadId tweets lastTweetId
                            else lastTweetId
          sendAttemptCount := delivered.2.length
          errorNotifyAttempted := false
          raised := false }

/-- storage.ts line 11: a `MemoryStorage` starts with `lastTweetId = null`. -/
def MemoryStorage.initialLastTweetId : Option String := none

/-- tweetMonitor.ts line 60: the run constructs a fresh `MemoryStorage` inside
its own body, so every run reads the initial (null) watermark. -/
def monitorTweetsRun (fetch : FetchOutcome) (sendOk : Nat → Bool) : RunResult :=
  monitorRun fetch MemoryStorage.initialLastTweetId sendOk

/-- Two successive invocations of the task with the same fetch result.  No
state flows from the first run into the second: the watermark store is a local
of each run (tweetMonitor.ts line 60). -/
def runTwice (fetch : FetchOutcome) (sendOk : Nat → Bool) : RunResult × RunResult :=
  (monitorTweetsRun fetch sendOk, monitorTweetsRun fetch sendOk)

/-- FileStorage.getLastTweetId (storage.ts lines 31-40) given the result of
the underlying `fs.readFile`: trims the data on success and returns null on
any read error. -/
def FileStorage.getLastTweetId (readFile : Except String String) : Option String :=
  match readFile with
  | .ok data => some data.trim
  | .error _ => none

/-- FileStorage.saveLastTweetId (storage.ts lines 42-50) given the result of
the underlying `fs.writeFile`: a write error is caught and logged, so the call
itself always succeeds. -/
def FileStorage.saveLastTweetId (writeFile : Except String Unit) : Except String Unit :=
  match writeFile with
  | .ok _ => Except.ok ()
  | .error _ => Except.ok ()

/-- discordClient.ts line 137: the x.com status URL. -/
def tweetUrl (user : TwitterUser) (tweet : Tweet) : String :=
  "https://x.com/" ++ user.username ++ "/status/" ++ tweet.id

/-- discordClient.ts line 147: the announcement line of every sendTweet post. -/
def announceLine (user : TwitterUser) : String :=
  "🐦 **New post from @" ++ user.username ++ "**"

/-- One webhook post attempt: its content, whether an embed was attached, and
whether the post succeeded. -/
structure SendAttempt where
  content : String
  hasEmbed : Bool
  succeeded : Bool
deriving DecidableEq, Repr

/-- Result of DiscordClient.sendTweet: the posts attempted in order, and
whether the call threw. -/
structure SendTweetResult where
  attempts : List SendAttempt
  raised : Bool
deriving DecidableEq, Repr

/-- DiscordClient.sendTweet (discordClient.ts lines 136-166) given oracles for
the outcome of the embed post and of the fallback post.  The embed post is
tried first; on failure the catch block posts the announcement line plus the
tweet URL with no embed, and only a failure of that fallback propagates. -/
def sendTweet (embedSendOk fallbackSendOk : Bool) (tweet : Tweet)
    (user : TwitterUser) : SendTweetResult :=
  let content := announceLine user
  if embedSendOk then
    { attempts := [⟨content, true, true⟩], raised := false }
  else
    let fallbackContent := content ++ "\n" ++ tweetUrl user tweet
    { attempts := [⟨content, true, false⟩, ⟨fallbackContent, false, fallbackSendOk⟩]
      raised := !fallbackSendOk }

-- Concrete tweets and a user for worked examples and witnesses.
def tId (s : String) : Tweet := ⟨s, "", "", ""⟩

def exUser : TwitterUser := ⟨"u1", "alice", "Alice", false⟩

/-! ## Helper lemmas -/

theorem findIndexAux_eq_none (p : Tweet → Bool) (l : List Tweet) :
    ∀ i, findIndexAux p l i = none ↔ ∀ t ∈ l, p t = false := by
  induction l with
  | nil => intro i; simp [findIndexAux]
  | cons t rest ih =>
    intro i
    by_cases h : p t = true
    · simp [findIndexAux, h]
    · simp only [Bool.not_eq_true] at h
      simp [findIndexAux, h, ih (i + 1)]

theorem findIndexAux_first (p : Tweet → Bool) (l : List Tweet) :
    ∀ (k i : Nat) (hk : k < l.length),
      (∀ j (hj : j < k), p (l.get ⟨j, Nat.lt_trans hj hk⟩) = false) →
      p (l.get ⟨k, hk⟩) = true →
      findIndexAux p l i = some (i + k) := by
  induction l with
  | nil => intro k i hk; simp at hk
  | cons t rest ih =>
    intro k i hk hbefore hp
    cases k with
    | zero =>
      simp only [List.get] at hp
      simp [findIndexAux, hp]
    | succ k' =>
      have ht : p t = false := hbefore 0 (Nat.succ_pos k')
      have hk' : k' < rest.length := by
        simpa [Nat.succ_lt_succ_iff] using hk
      have hb : ∀ j (hj : j < k'), p (rest.get ⟨j, Nat.lt_trans hj hk'⟩) = false := by
        intro j hj
        exact hbefore (j + 1) (Nat.succ_lt_succ hj)
      have hp' : p (rest.get ⟨k', hk'⟩) = true := hp
      have := ih k' (i + 1) hk' hb hp'
      simp [findIndexAux, ht, this]
      omega

theorem nodup_id_ne (tweets : List Tweet) (hnd : (tweets.map Tweet.id).Nodup)
    (j k : Nat) (hj : j < tweets.length) (hk : k < tweets.length) (hjk : j ≠ k) :
    (tweets.get ⟨j, hj⟩).id ≠ (tweets.get ⟨k, hk⟩).id := by
  intro he
  have hj' : j < (tweets.map Tweet.id).length := by simpa using hj
  have hk' : k < (tweets.map Tweet.id).length := by simpa using hk
  have hmap : (tweets.map Tweet.id)[j] = (tweets.map Tweet.id)[k] := by
    rw [List.getElem_map, List.getElem_map]
    simpa [List.get_eq_getElem] using he
  exact hjk (hnd.getElem_inj_iff.mp hmap)

theorem deliverAux_fst (sendOk : Nat → Bool) (n : Nat) (l : List Tweet) :
    ∀ i c, (deliverAux n sendOk l i c).1 = c + countIdx sendOk i l.length := by
  induction l with
  | nil => intro i c; simp [deliverAux, countIdx]
  | cons t rest ih =>
    intro i c
    by_cases h : sendOk i
    · simp [deliverAux, h, countIdx, ih (i + 1) (c + 1)]
      omega
    · simp only [Bool.not_eq_true] at h
      simp [deliverAux, h, countIdx, ih (i + 1) c]

theorem countP_range_all (p : Nat → Bool) :
    ∀ n, (∀ j, j < n → p j = true) → (List.range n).countP p = n := by
  intro n
  induction n with
  | zero => intro _; simp
  | succ n' ih =>
    intro h
    rw [List.range_succ, List.countP_append]
    rw [ih (fun j hj => h j (Nat.lt_trans hj (Nat.lt_succ_self n')))]
    simp [List.countP_cons, h n' (Nat.lt_succ_self n')]

theorem countP_range_one_fail (p : Nat → Bool) (i0 : Nat)
    (hfail : p i0 = false) (hothers : ∀ j, j ≠ i0 → p j = true) :
    ∀ n, i0 < n → (List.range n).countP p = n - 1 := by
  intro n
  induction n with
  | zero => omega
  | succ n' ih =>
    intro hi0
    rw [List.range_succ, List.countP_append]
    by_cases h : i0 = n'
    · subst h
      rw [countP_range_all p i0 (fun j hj => hothers j (by omega))]
      simp [List.countP_cons, hfail]
    · have hi0' : i0 < n' := by omega
      rw [ih hi0']
      have hn' : p n' = true := hothers n' (fun he => h he.symm)
      simp [List.countP_cons, hn']
      omega

theorem countIdx_eq_countP (sendOk : Nat → Bool) :
    ∀ (m i : Nat), countIdx sendOk i m = (List.range m).countP (fun j => sendOk (i + j)) := by
  intro m
  induction m with
  | zero => intro i; simp [countIdx]
  | succ m' ih =>
    intro i
    rw [List.range_succ_eq_map, List.countP_cons, List.countP_map]
    have harg : ((fun j => sendOk (i + j)) ∘ Nat.succ) = fun j => sendOk (i + 1 + j) := by
      funext j
      simp only [Function.comp]
      congr 1
      omega
    rw [harg, ← ih (i + 1)]
    simp [countIdx]
    omega

theorem countIdx_zero (sendOk : Nat → Bool) (n : Nat) :
    countIdx sendOk 0 n = (List.range n).countP sendOk := by
  rw [countIdx_eq_countP]
  congr 1
  funext j
  simp

theorem deliverAll_fst (batch : List Tweet) (sendOk : Nat → Bool) :
    (deliverAll batch sendOk).1 = (List.range batch.length).countP sendOk := by
  rw [deliverAll, deliverAux_fst, countIdx_zero]
  omega

theorem deliverAux_snd_length (sendOk : Nat → Bool) (n : Nat) (l : List Tweet) :
    ∀ i c, (deliverAux n sendOk l i c).2.length = l.length := by
  induction l with
  | nil => intro i c; simp [deliverAux]
  | cons t rest ih =>
    intro i c
    by_cases h : sendOk i
    · simp [deliverAux, h, ih]
    · simp only [Bool.not_eq_true] at h
      simp [deliverAux, h, ih]

theorem countIdx_all_true (sendOk : Nat → Bool) (hall : ∀ j, sendOk j = true) :
    ∀ m i, countIdx sendOk i m = m := by
  intro m
  induction m with
  | zero => intro i; rfl
  | succ m' ih =>
    intro i
    simp [countIdx, hall i, ih (i + 1)]
    omega

theorem deliverAux_snd (sendOk : Nat → Bool) (n : Nat) (l : List Tweet) :
    ∀ i c, (deliverAux n sendOk l i c).2 =
      (List.range l.length).map
        (fun j => sendOk (i + j)
          && (decide (1 < n) && decide (c + countIdx sendOk i (j + 1) < n))) := by
  induction l with
  | nil => intro i c; simp [deliverAux]
  | cons t rest ih =>
    intro i c
    rw [List.length_cons, List.range_succ_eq_map, List.map_cons, List.map_map]
    by_cases h : sendOk i = true
    · have hcount : ∀ j : Nat, countIdx sendOk i (j + 1) = 1 + countIdx sendOk (i + 1) j := by
        intro j; simp [countIdx, h]
      have hfun : ((fun j => sendOk (i + j)
            && (decide (1 < n) && decide (c + countIdx sendOk i (j + 1) < n))) ∘ Nat.succ)
          = fun j => sendOk (i + 1 + j)
            && (decide (1 < n) && decide (c + 1 + countIdx sendOk (i + 1) (j + 1) < n)) := by
        funext j
        simp only [Function.comp, Nat.succ_eq_add_one]
        rw [hcount (j + 1)]
        have e1 : i + (j + 1) = i + 1 + j := by omega
        have e2 : c + (1 + countIdx sendOk (i + 1) (j + 1))
            = c + 1 + countIdx sendOk (i + 1) (j + 1) := by omega
        rw [e1, e2]
      simp only [deliverAux, h, if_true]
      rw [ih (i + 1) (c + 1), ← hfun]
      congr 1
      simp [h, hcount 0, countIdx]
    · simp only [Bool.not_eq_true] at h
      have hcount : ∀ j : Nat, countIdx sendOk i (j + 1) = countIdx sendOk (i + 1) j := by
        intro j; simp [countIdx, h]
      have hfun : ((fun j => sendOk (i + j)
            && (decide (1 < n) && decide (c + countIdx sendOk i (j + 1) < n))) ∘ Nat.succ)
          = fun j => sendOk (i + 1 + j)
            && (decide (1 < n) && decide (c + countIdx sendOk (i + 1) (j + 1) < n)) := by
        funext j
        simp only [Function.comp, Nat.succ_eq_add_one]
        rw [hcount (j + 1)]
        have e1 : i + (j + 1) = i + 1 + j := by omega
        rw [e1]
      simp only [deliverAux, h, Bool.false_eq_true, if_false]
      rw [ih (i + 1) c, ← hfun]
      congr 1
      simp [h, hcount 0, countIdx]

theorem deliverAll_snd (batch : List Tweet) (sendOk : Nat → Bool) :
    (deliverAll batch sendOk).2 =
      (List.range batch.length).map
        (fun j => sendOk j && (decide (1 < batch.length)
          && decide (countIdx sendOk 0 (j + 1) < batch.length))) := by
  rw [deliverAll, deliverAux_snd]
  congr 1
  funext j
  simp

example :
    computeNew [tId "id5", tId "id4", tId "id3", tId "id2", tId "id1"] (some "id3")
      = [tId "id4", tId "id5"] := by decide

example : computeNew [tId "id5", tId "id4"] none = [tId "id4", tId "id5"] := by decide

example : deliverAll [tId "a", tId "b"] (fun i => decide (i ≠ 0)) = (1, [false, true]) := by
  decide

example : deliverAll [tId "a", tId "b", tId "c"] (fun _ => true) = (3, [true, true, false]) := by
  decide

/-! ## Claim theorems -/

/-- C1: for a fetched list (newest-first) with pairwise distinct ids in which
the watermark id occurs at position k, `computeNew` returns exactly the k
strictly newer items, reversed to oldest-first, and the watermark item itself
is excluded from the result. -/
theorem computeNew_watermark_at_k (tweets : List Tweet) (w : String) (k : Nat)
    (hk : k < tweets.length) (hnd : (tweets.map Tweet.id).Nodup)
    (hw : (tweets.get ⟨k, hk⟩).id = w) :
    computeNew tweets (some w) = (tweets.take k).reverse
    ∧ (computeNew tweets (some w)).length = k
    ∧ ∀ t ∈ computeNew tweets (some w), t.id ≠ w := by
  have hbefore : ∀ j (hj : j < k),
      ((tweets.get ⟨j, Nat.lt_trans hj hk⟩).id == w) = false := by
    intro j hj
    have hne := nodup_id_ne tweets hnd j k (Nat.lt_trans hj hk) hk (Nat.ne_of_lt hj)
    rw [hw] at hne
    simpa using hne
  have hat : ((tweets.get ⟨k, hk⟩).id == w) = true := by simpa using hw
  have hfind : findIndex (fun t => t.id == w) tweets = some k := by
    have h0 := findIndexAux_first (fun t => t.id == w) tweets k 0 hk hbefore hat
    simpa [findIndex] using h0
  have hsel : selectNew tweets (some w) = tweets.take k := by
    simp [selectNew, hfind]
  refine ⟨by simp [computeNew, hsel], ?_, ?_⟩
  · simp [computeNew, hsel, List.length_take]
    omega
  · intro t ht
    rw [computeNew, hsel, List.mem_reverse, List.mem_take_iff_getElem] at ht
    obtain ⟨j, hj, rfl⟩ := ht
    have hjk : j < k := lt_of_lt_of_le hj (min_le_left _ _)
    have hjlen : j < tweets.length := Nat.lt_trans hjk hk
    have hne := nodup_id_ne tweets hnd j k hjlen hk (Nat.ne_of_lt hjk)
    rw [hw] at hne
    simpa [List.get_eq_getElem] using hne

/-- C1 witness: the spec's worked example, fetched = [id5, id4, id3, id2, id1]
with watermark id3 at position 2. -/
theorem computeNew_watermark_at_k_witness :
    computeNew [tId "id5", tId "id4", tId "id3", tId "id2", tId "id1"] (some "id3")
        = ([tId "id5", tId "id4", tId "id3", tId "id2", tId "id1"].take 2).reverse
    ∧ (computeNew [tId "id5", tId "id4", tId "id3", tId "id2", tId "id1"]
        (some "id3")).length = 2
    ∧ ∀ t ∈ computeNew [tId "id5", tId "id4", tId "id3", tId "id2", tId "id1"]
        (some "id3"), t.id ≠ "id3" :=
  computeNew_watermark_at_k [tId "id5", tId "id4", tId "id3", tId "id2", tId "id1"]
    "id3" 2 (by decide) (by decide) (by decide)

/-- C2 counterexample: with a null watermark, `newTweets` aliases the fetched
array and the in-place reverse mutates it, so a fully successful run over
fetched [id 5, id 4, id 3] delivers all three items yet stores watermark "3"
— the OLDEST fetched id — where the claim requires the newest id "5". -/
theorem watermark_newest_claim_counterexample :
    (monitorRun (.ok [tId "5", tId "4", tId "3"]) none
        (fun _ => true)).tweetsProcessed = 3
    ∧ (monitorRun (.ok [tId "5", tId "4", tId "3"]) none
        (fun _ => true)).watermarkAfter = some "3" := by
  constructor <;> decide

/-- C2 amended: the watermark is overwritten exactly when deliveredCount > 0
(unchanged when it is 0), even with partial failures, and with one failing
non-last item deliveredCount is batchSize - 1 and the watermark still
advances; but the id written is tweets[0].id after the loop: the newest
fetched id when the watermark id was found in the fetched list (slice built a
fresh array), the OLDEST fetched id when the watermark was null or unmatched
(the in-place reverse mutated the fetched array). -/
theorem watermark_advances_iff_delivered (t0 : Tweet) (rest : List Tweet)
    (lastId : Option String) (sendOk : Nat → Bool) :
    ((monitorRun (.ok (t0 :: rest)) lastId sendOk).watermarkAfter =
      if 0 < (monitorRun (.ok (t0 :: rest)) lastId sendOk).tweetsProcessed
      then postLoopHeadId (t0 :: rest) lastId else lastId)
    ∧ (∀ i0, sendOk i0 = false → (∀ j, j ≠ i0 → sendOk j = true) →
        i0 + 1 < (computeNew (t0 :: rest) lastId).length →
        (monitorRun (.ok (t0 :: rest)) lastId sendOk).tweetsProcessed
            = (computeNew (t0 :: rest) lastId).length - 1
        ∧ (monitorRun (.ok (t0 :: rest)) lastId sendOk).watermarkAfter
            = postLoopHeadId (t0 :: rest) lastId)
    ∧ (newTweetsAliasesFetched (t0 :: rest) lastId = false →
        postLoopHeadId (t0 :: rest) lastId = some t0.id)
    ∧ (newTweetsAliasesFetched (t0 :: rest) lastId = true →
        postLoopHeadId (t0 :: rest) lastId = ((t0 :: rest).getLast?).map Tweet.id) := by
  refine ⟨?_, ?_, ?_, ?_⟩
  · by_cases hemp : (selectNew (t0 :: rest) lastId).length = 0
    · simp [monitorRun, hemp]
    · simp [monitorRun, hemp]
  · intro i0 hfail hothers hi0
    have hlen : (computeNew (t0 :: rest) lastId).length
        = (selectNew (t0 :: rest) lastId).length := by
      simp [computeNew]
    have hemp : ¬((selectNew (t0 :: rest) lastId).length = 0) := by omega
    have hcount : (deliverAll (selectNew (t0 :: rest) lastId).reverse sendOk).1
        = (selectNew (t0 :: rest) lastId).length - 1 := by
      rw [deliverAll_fst, List.length_reverse]
      exact countP_range_one_fail sendOk i0 hfail hothers _ (by omega)
    constructor
    · simp only [monitorRun, hemp, if_false]
      rw [hcount, hlen]
    · simp only [monitorRun, hemp, if_false]
      rw [hcount]
      have hpos : 0 < (selectNew (t0 :: rest) lastId).length - 1 := by omega
      simp [hpos]
  · intro halias
    simp [postLoopHeadId, halias]
  · intro halias
    simp only [postLoopHeadId, halias, if_true, List.head?_reverse]

/-- C2 witness: three new tweets, null watermark, the middle delivery fails:
deliveredCount is 2 and the watermark advances to tweets[0].id after the
in-place reverse (the oldest fetched id). -/
theorem watermark_advances_iff_delivered_witness :
    (monitorRun (.ok [tId "5", tId "4", tId "3"]) none
        (fun i => decide (i ≠ 1))).tweetsProcessed
      = (computeNew [tId "5", tId "4", tId "3"] none).length - 1
    ∧ (monitorRun (.ok [tId "5", tId "4", tId "3"]) none
        (fun i => decide (i ≠ 1))).watermarkAfter
      = postLoopHeadId [tId "5", tId "4", tId "3"] none :=
  (watermark_advances_iff_delivered (tId "5") [tId "4", tId "3"] none
      (fun i => decide (i ≠ 1))).2.1
    1 (by decide) (fun j hj => by simp [hj]) (by decide)

/-- C3: the claim of idempotence fails on the code. Line 60 of tweetMonitor.ts
constructs a fresh MemoryStorage inside the run body, so a second run with the
same fetched list reads a null watermark again and re-processes every tweet:
its tweetsProcessed is 1 on a one-tweet fetch, not 0. -/
theorem second_run_reprocesses_everything :
    (runTwice (.ok [tId "100"]) (fun _ => true)).2.tweetsProcessed = 1
    ∧ (runTwice (.ok [tId "100"]) (fun _ => true)).1.tweetsProcessed = 1
    ∧ MemoryStorage.initialLastTweetId = none := by
  refine ⟨?_, ?_, rfl⟩ <;> decide

/-- C4: a per-item delivery failure aborts nothing: every item of the batch is
attempted, the run completes with a normal outcome, and tweetsProcessed counts
exactly the attempts whose send succeeded. -/
theorem per_item_failure_isolated (t0 : Tweet) (rest : List Tweet)
    (lastId : Option String) (sendOk : Nat → Bool) :
    (monitorRun (.ok (t0 :: rest)) lastId sendOk).sendAttemptCount
        = (computeNew (t0 :: rest) lastId).length
    ∧ (monitorRun (.ok (t0 :: rest)) lastId sendOk).tweetsProcessed
        = (List.range (computeNew (t0 :: rest) lastId).length).countP sendOk
    ∧ (monitorRun (.ok (t0 :: rest)) lastId sendOk).status = "success"
    ∧ (monitorRun (.ok (t0 :: rest)) lastId sendOk).raised = false := by
  have hlen : (computeNew (t0 :: rest) lastId).length
      = (selectNew (t0 :: rest) lastId).length := by
    simp [computeNew]
  by_cases hemp : (selectNew (t0 :: rest) lastId).length = 0
  · refine ⟨?_, ?_, ?_, ?_⟩ <;> simp [monitorRun, hemp, hlen]
  · refine ⟨?_, ?_, ?_, ?_⟩
    · simp only [monitorRun, hemp, if_false]
      rw [deliverAll, deliverAux_snd_length, List.length_reverse, hlen]
    · simp only [monitorRun, hemp, if_false]
      rw [deliverAll_fst, List.length_reverse, hlen]
    · simp [monitorRun, hemp]
    · simp [monitorRun, hemp]

/-- C5: a rate-limited fetch ends the run with status rate_limited, zero
items processed, no error notification, an unchanged watermark, and no error
re-raised to the caller. -/
theorem rate_limited_clean_exit (lastId : Option String) (sendOk : Nat → Bool) :
    monitorRun .rateLimited lastId sendOk =
      { status := "rate_limited"
        message := "Rate limit exceeded - will retry in 15 minutes"
        tweetsProcessed := 0
        latestTweetId := none
        watermarkAfter := lastId
        sendAttemptCount := 0
        errorNotifyAttempted := false
        raised := false } := rfl

/-- C6: with an absent watermark, or a watermark id that occurs nowhere in the
non-empty fetched list, `computeNew` returns the entire fetched list reversed
to oldest-first. -/
theorem computeNew_watermark_absent (tweets : List Tweet) (w : Option String)
    (hne : tweets ≠ []) (h : ∀ t ∈ tweets, some t.id ≠ w) :
    computeNew tweets w = tweets.reverse := by
  cases w with
  | none => rfl
  | some lastId =>
    have hfind : findIndex (fun t => t.id == lastId) tweets = none := by
      rw [findIndex, findIndexAux_eq_none]
      intro t ht
      have hne' := h t ht
      simp only [ne_eq, Option.some.injEq] at hne'
      simpa using hne'
    simp [computeNew, selectNew, hfind]

/-- C6 witness: a two-item fetch whose watermark id is absent from the list. -/
theorem computeNew_watermark_absent_witness :
    computeNew [tId "7", tId "6"] (some "id0") = [tId "7", tId "6"].reverse :=
  computeNew_watermark_absent [tId "7", tId "6"] (some "id0") (by decide) (by decide)

/-- C7: a failing watermark read returns null instead of an error, the run
then diffs the full fetch window as all-new, and a failing watermark write is
swallowed so the write call never fails. -/
theorem storage_failures_tolerated (e : String) (tweets : List Tweet)
    (w : Except String Unit) :
    FileStorage.getLastTweetId (Except.error e) = none
    ∧ computeNew tweets none = tweets.reverse
    ∧ FileStorage.saveLastTweetId w = Except.ok () := by
  refine ⟨rfl, rfl, ?_⟩
  cases w <;> rfl

/-- C8: an empty fetched list diffs to an empty new subset for every
watermark, and the run ends successfully with zero items processed, no send
attempts and an unchanged watermark. -/
theorem empty_fetch_noop (w lastId : Option String) (sendOk : Nat → Bool) :
    computeNew [] w = []
    ∧ monitorRun (.ok []) lastId sendOk =
      { status := "success"
        message := "No tweets found"
        tweetsProcessed := 0
        latestTweetId := none
        watermarkAfter := lastId
        sendAttemptCount := 0
        errorNotifyAttempted := false
        raised := false } := by
  refine ⟨?_, rfl⟩
  cases w <;> rfl

/-- C9 counterexample: in a two-item batch whose first send fails and whose
second succeeds, the pacing-delay trace is [false, true]: no delay between the
two consecutive attempts, and a delay after the final item of the batch. -/
theorem pacing_claim_counterexample :
    (deliverAll [tId "a", tId "b"] (fun i => decide (i ≠ 0))).2 = [false, true] := by
  decide

/-- C9 amended: a pacing delay runs exactly after each successful send of a
multi-item batch while the number of successes is still below the batch size;
when every send succeeds this puts a delay between each pair of consecutive
attempts and none after the final item, and a single-item batch never
delays. -/
theorem pacing_delay_characterization (batch : List Tweet) (sendOk : Nat → Bool) :
    (deliverAll batch sendOk).2 =
      (List.range batch.length).map
        (fun j => sendOk j && (decide (1 < batch.length)
          && decide (countIdx sendOk 0 (j + 1) < batch.length)))
    ∧ ((∀ j, sendOk j = true) →
        (deliverAll batch sendOk).2 =
          (List.range batch.length).map (fun j => decide (j + 1 < batch.length))) := by
  refine ⟨deliverAll_snd batch sendOk, ?_⟩
  intro hall
  rw [deliverAll_snd]
  congr 1
  funext j
  rw [countIdx_all_true sendOk hall (j + 1) 0]
  by_cases hn : 1 < batch.length
  · simp [hall j, hn]
  · have hj : ¬(j + 1 < batch.length) := by omega
    simp [hall j, hn, hj]

/-- C9 amended witness: in an all-success three-item batch the delays run
after the first and second attempts only. -/
theorem pacing_delay_characterization_witness :
    (deliverAll [tId "a", tId "b", tId "c"] (fun _ => true)).2 =
      (List.range ([tId "a", tId "b", tId "c"] : List Tweet).length).map
        (fun j => decide (j + 1 < ([tId "a", tId "b", tId "c"] : List Tweet).length)) :=
  (pacing_delay_characterization [tId "a", tId "b", tId "c"] (fun _ => true)).2
    (fun _ => rfl)

/-- C10: sendTweet raises only when both the embed post and the fallback post
fail; when the embed post fails, the fallback posts exactly the announcement
line plus the tweet URL with no embed; when the embed post succeeds no
fallback is sent. -/
theorem sendTweet_fallback (e f : Bool) (tweet : Tweet) (user : TwitterUser) :
    ((sendTweet e f tweet user).raised = true ↔ e = false ∧ f = false)
    ∧ (e = true → (sendTweet e f tweet user).attempts
        = [⟨announceLine user, true, true⟩])
    ∧ (e = false → (sendTweet e f tweet user).attempts
        = [⟨announceLine user, true, false⟩,
           ⟨announceLine user ++ "\n" ++ tweetUrl user tweet, false, f⟩]) := by
  cases e <;> cases f <;> simp [sendTweet]

/-- C10 witness: a failing embed post with a succeeding fallback posts the
announcement line plus URL and does not raise. -/
theorem sendTweet_fallback_witness :
    (sendTweet false true (tId "42") exUser).attempts
      = [⟨announceLine exUser, true, false⟩,
         ⟨announceLine exUser ++ "\n" ++ tweetUrl exUser (tId "42"), false, true⟩] :=
  (sendTweet_fallback false true (tId "42") exUser).2.2 rfl
